import Mathlib

/-!
Shallow embedding of the Eatelligence / barcode-scanner health-food scanner
(`src/Eatelligence.py`, `src/barcode_scanner_app.py`,
`src/barcode_scanner_app_streamlit.py`).

Python `float` values are modelled as `ℚ`; every numeric value reached by the
claims is exactly representable in binary floating point (small integers and
their sums), and the single division in `is_healthier_option` compares
`better/total` (with `total ≤ 6`) against `0.6`, a comparison on which exact
rational arithmetic and IEEE doubles agree for every reachable pair, so the
embedding in `ℚ` is faithful.

A nutrient value coming from the JSON `nutriments` mapping can be a number,
a string (numeric or not, empty or not) or `None`; `PyVal` covers these and
`pyFloat` models Python's `float(...)` conversion (raising `ValueError` /
`TypeError`, collapsed to one error), `pyTruthy` models Python truthiness as
used in the `x or 0` idiom.
-/

/-- A value stored in a `nutriments` dict. `strNum q` is a nonempty string
that `float` parses as `q`; `strBad` a nonempty string that does not parse;
`strEmpty` the empty string; `null` is Python `None`. -/
inductive PyVal where
  | num : ℚ → PyVal
  | strNum : ℚ → PyVal
  | strBad : PyVal
  | strEmpty : PyVal
  | null : PyVal
  deriving DecidableEq, Repr

/-- Python `float(v)`: numbers and numeric strings convert; non-numeric or
empty strings raise `ValueError`; `None` raises `TypeError`. -/
def pyFloat : PyVal → Except Unit ℚ
  | .num q => .ok q
  | .strNum q => .ok q
  | .strBad => .error ()
  | .strEmpty => .error ()
  | .null => .error ()

/-- Python truthiness of a `PyVal` (`bool(v)`): `0`/`0.0`, the empty string
and `None` are falsy, everything else truthy. -/
def pyTruthy : PyVal → Bool
  | .num q => decide (q ≠ 0)
  | .strNum _ => true
  | .strBad => true
  | .strEmpty => false
  | .null => false

/-- Python `float(v or 0)` as used in `is_healthier_option`. -/
def floatOr0 (v : PyVal) : Except Unit ℚ :=
  if pyTruthy v then pyFloat v else .ok 0

/-- A `nutriments` mapping: association list from nutrient key to value
(Python dicts have unique keys; lookup takes the first binding). -/
abbrev Nutrients : Type := List (String × PyVal)

/-- Dict lookup: `m[k]` as an `Option`, `k in m` as `isSome`. -/
def nlookup (m : Nutrients) (k : String) : Option PyVal :=
  match m with
  | [] => none
  | kv :: rest => if kv.1 = k then some kv.2 else nlookup rest k

/-- Python `nutrients.get(nutrient, 0)`: lookup with integer default `0`. -/
def nget (m : Nutrients) (k : String) : PyVal :=
  (nlookup m k).getD (.num 0)

/-- The `negative_factors` dict of `calculate_health_score`, in insertion
order, with the Python impact values. -/
def negative_factors : List (String × ℚ) :=
  [("sugars_100g", -5), ("saturated-fat_100g", -5),
   ("sodium_100g", -4), ("fat_100g", -3)]

/-- The `positive_factors` dict of `calculate_health_score`, in insertion
order. -/
def positive_factors : List (String × ℚ) :=
  [("proteins_100g", 4), ("fiber_100g", 4), ("vitamin-d_100g", 2),
   ("calcium_100g", 2), ("iron_100g", 2), ("potassium_100g", 2)]

/-- One loop iteration of `calculate_health_score` in `src/Eatelligence.py`
(lines 243-255): `score += impact * min(float(value), 10)` with
`ValueError`/`TypeError` caught and the nutrient skipped (`continue`). -/
def factorContribution (m : Nutrients) (f : String × ℚ) : ℚ :=
  match pyFloat (nget m f.1) with
  | .ok v => f.2 * min v 10
  | .error _ => 0

/-- Embedding of `HealthyFoodScanner.calculate_health_score` of `src/Eatelligence.py`
(lines 222-257), as a function of the `nutriments` mapping
(`product_info.get('nutriments', {})` is the caller-side projection):
start at `50.0`, add each factor's contribution, clamp with
`max(1.0, min(100.0, score))`. -/
def calculate_health_score (m : Nutrients) : ℚ :=
  let score :=
    (negative_factors ++ positive_factors).foldl
      (fun s f => s + factorContribution m f) 50
  max 1 (min 100 score)

/-- Embedding of `HealthyFoodScanner.calculate_health_score` of
`src/barcode_scanner_app.py` (lines 210-239) and of
`src/barcode_scanner_app_streamlit.py` (lines 155-184): the same arithmetic
but with NO try/except around `float(value)`, so a `None` or non-numeric
string value propagates as an uncaught exception (`.error`). -/
def calculate_health_score_cli (m : Nutrients) : Except Unit ℚ := do
  let score ←
    (negative_factors ++ positive_factors).foldlM
      (fun s f => do
        let v ← pyFloat (nget m f.1)
        pure (s + f.2 * min v 10)) (50 : ℚ)
  pure (max 1 (min 100 score))

/-- The numeric value the spec's scoring algorithm assigns to a nutrient key:
the stored value when present and numeric, else `0` ("value defaults to 0 if
absent or non-numeric"). Reference definition following the words of the
claim/spec, to be compared with the source embedding. -/
def specNutrientValue (m : Nutrients) (k : String) : ℚ :=
  match nlookup m k with
  | some v =>
    match pyFloat v with
    | .ok q => q
    | .error _ => 0
  | none => 0

/-- The spec's reference health score: start at 50; subtract
`weight * min(value, 10)` for sugars, saturated fat, sodium, fat with weights
5, 5, 4, 3; add `weight * min(value, 10)` for protein, fiber, vitamin D,
calcium, iron, potassium with weights 4, 4, 2, 2, 2, 2; clamp into
`[1, 100]`. Written out literally from the claim's words. -/
def healthScoreSpec (m : Nutrients) : ℚ :=
  let raw : ℚ := 50
    - 5 * min (specNutrientValue m "sugars_100g") 10
    - 5 * min (specNutrientValue m "saturated-fat_100g") 10
    - 4 * min (specNutrientValue m "sodium_100g") 10
    - 3 * min (specNutrientValue m "fat_100g") 10
    + 4 * min (specNutrientValue m "proteins_100g") 10
    + 4 * min (specNutrientValue m "fiber_100g") 10
    + 2 * min (specNutrientValue m "vitamin-d_100g") 10
    + 2 * min (specNutrientValue m "calcium_100g") 10
    + 2 * min (specNutrientValue m "iron_100g") 10
    + 2 * min (specNutrientValue m "potassium_100g") 10
  max 1 (min 100 raw)

/-- The `comparisons` dict of `is_healthier_option` in insertion order;
`true` marks a `'>'` comparison (alternative should have more), `false` a
`'<'` comparison (alternative should have less). -/
def comparisonList : List (String × Bool) :=
  [("sugars_100g", false), ("fat_100g", false), ("saturated-fat_100g", false),
   ("sodium_100g", false), ("proteins_100g", true), ("fiber_100g", true)]

/-- One iteration of the `is_healthier_option` loop (`src/Eatelligence.py`
lines 209-218): when the key is in both dicts, convert both values with
`float(x or 0)` (which can raise), bump `better_count` when the directional
comparison holds, and always bump `total_comparisons`. State is
`(better_count, total_comparisons)`. -/
def compareStep (cur alt : Nutrients) (s : ℕ × ℕ) (c : String × Bool) :
    Except Unit (ℕ × ℕ) :=
  match nlookup cur c.1, nlookup alt c.1 with
  | some cvRaw, some avRaw => do
    let cv ← floatOr0 cvRaw
    let av ← floatOr0 avRaw
    let better : Bool := if c.2 then decide (cv < av) else decide (av < cv)
    pure (if better then s.1 + 1 else s.1, s.2 + 1)
  | _, _ => pure s

/-- Embedding of `HealthyFoodScanner.is_healthier_option` (`src/Eatelligence.py` lines
195-220, identical in both other variants): run the comparison loop from
`(0, 0)` and return
`total_comparisons > 0 and (better_count / total_comparisons) >= 0.6`.
The division is exact here: over the reachable states (`total ≤ 6`) the
IEEE-double comparison against `0.6` coincides with the rational one
against `3/5`. -/
def is_healthier_option (cur alt : Nutrients) : Except Unit Bool := do
  let s ← comparisonList.foldlM (compareStep cur alt) ((0, 0) : ℕ × ℕ)
  pure (decide (0 < s.2 ∧ (3 : ℚ) / 5 ≤ (s.1 : ℚ) / (s.2 : ℚ)))

/-- Whether a comparison pair is defined on both sides (its key present in
both mappings), from the claim's words. -/
def definedOn (cur alt : Nutrients) (c : String × Bool) : Bool :=
  (nlookup cur c.1).isSome && (nlookup alt c.1).isSome

/-- Reference definition following the claim's words: the comparison pairs
defined on both sides. -/
def definedPairs (cur alt : Nutrients) : List (String × Bool) :=
  comparisonList.filter (definedOn cur alt)

/-- Total version of the `float(x or 0)` conversion used to state the
reference predicate (defaults to `0` where the conversion would raise). -/
def numValD (m : Nutrients) (k : String) : ℚ :=
  (((nlookup m k).getD (.num 0) |> floatOr0).toOption).getD 0

/-- Whether a defined pair satisfies its directional comparison (alternative
strictly lower on a `<` nutrient, strictly higher on a `>` nutrient). -/
def satOn (cur alt : Nutrients) (c : String × Bool) : Bool :=
  if c.2 then decide (numValD cur c.1 < numValD alt c.1)
  else decide (numValD alt c.1 < numValD cur c.1)

/-- Reference majority-improvement predicate, from the claim's words: the
number of pairs defined on both sides is positive and the fraction of
defined pairs satisfying their directional comparison is at least `0.6`. -/
def majoritySpec (cur alt : Nutrients) : Bool :=
  let defined := definedPairs cur alt
  let satisfied := defined.countP (satOn cur alt)
  decide (0 < defined.length ∧
    (3 : ℚ) / 5 ≤ (satisfied : ℚ) / (defined.length : ℚ))

/-- A product record as fetched from the OpenFoodFacts JSON: the fields the
scanner reads. `Option` marks fields read with `.get(...)` that may be
absent. -/
structure Product where
  code : Option String
  product_name : Option String
  brands : Option String
  serving_size : Option String
  countries_tags : List String
  categories_tags : List String
  nutriments : Nutrients

/-- The alternative dict built at `src/Eatelligence.py` lines 170-176. -/
structure Alt where
  name : String
  brand : String
  health_score : ℚ
  nutriments : Nutrients
  serving_size : String
  deriving DecidableEq

/-- Build the alternative dict for an accepted candidate (`.get` defaults
`'Unknown'`, `'Unknown Brand'`, `'Not specified'`). -/
def mkAlt (p : Product) (score : ℚ) : Alt :=
  { name := p.product_name.getD "Unknown"
    brand := p.brands.getD "Unknown Brand"
    health_score := score
    nutriments := p.nutriments
    serving_size := p.serving_size.getD "Not specified" }

/-- The candidate loop of `find_healthier_alternatives`
(`src/Eatelligence.py` lines 157-176): skip the source's own code, compute
the candidate's score, keep only US-tagged candidates, and append the
candidate when its score strictly exceeds the source score and
`is_healthier_option` accepts; an exception inside the loop (raised by
`is_healthier_option` on a non-convertible value) propagates. The list is
built in pool order. -/
def processProducts (src : Product) (score : ℚ) :
    List Product → Except Unit (List Alt)
  | [] => .ok []
  | p :: rest =>
    if p.code = src.code then processProducts src score rest
    else
      let altScore := calculate_health_score p.nutriments
      if "en:united-states" ∉ p.countries_tags then
        processProducts src score rest
      else if score < altScore then
        match is_healthier_option src.nutriments p.nutriments with
        | .error e => .error e
        | .ok true =>
          match processProducts src score rest with
          | .error e => .error e
          | .ok l => .ok (mkAlt p altScore :: l)
        | .ok false => processProducts src score rest
      else processProducts src score rest

/-- Embedding of `alternatives.sort(key=lambda x: x['health_score'], reverse=True)`:
a stable sort descending by score (Python's sort is stable; insertion sort
into the `≥`-by-score order preserves the relative order of ties the same
way). -/
def altGE (a b : Alt) : Prop := b.health_score ≤ a.health_score

instance : DecidableRel altGE :=
  fun a b => inferInstanceAs (Decidable (b.health_score ≤ a.health_score))

instance : IsTotal Alt altGE :=
  ⟨fun a b => le_total b.health_score a.health_score⟩

instance : IsTrans Alt altGE :=
  ⟨fun _ _ _ h h2 => le_trans h2 h⟩

def sortByScoreDesc (l : List Alt) : List Alt :=
  l.insertionSort altGE

/-- The dedup-and-cap loop of `find_healthier_alternatives`
(`src/Eatelligence.py` lines 179-187): walk the sorted list, keep the first
occurrence of each name, and `break` as soon as 3 uniques are collected.
`seen` is the `seen` set, `acc` the `unique_alts` accumulator. -/
def uniqueLoop : List Alt → List String → List Alt → List Alt
  | [], _, acc => acc
  | a :: rest, seen, acc =>
    if a.name ∈ seen then uniqueLoop rest seen acc
    else
      let acc2 := acc ++ [a]
      if 3 ≤ acc2.length then acc2 else uniqueLoop rest (a.name :: seen) acc2

/-- Reference deduplication, from the spec's words: keep the first
occurrence of each display name, preserving order. -/
def dedupByName : List Alt → List Alt
  | [] => []
  | a :: rest => a :: dedupByName (rest.filter (fun b => b.name ≠ a.name))
termination_by l => l.length
decreasing_by
  simp only [List.length_cons]
  exact Nat.lt_succ_of_le (List.length_filter_le _ _)

/-- Outcome of the candidate-search HTTP call: `exn` when `requests.get` or
`response.json()` raised, otherwise a status code and the parsed
`products` array. -/
inductive SearchResponse where
  | exn : SearchResponse
  | ok : ℕ → List Product → SearchResponse

/-- Embedding of `HealthyFoodScanner.find_healthier_alternatives`
(`src/Eatelligence.py` lines 131-193) from the HTTP call onwards, as a
function of the search outcome. Python control flow: the whole body is in a
`try` whose `except` returns `[]` — this catches both a failed request and
an exception inside the candidate loop; on a 200 response the processed,
sorted, deduplicated, capped list is returned; on any other status the
function falls through all returns and yields Python `None` (`Option.none`
here). -/
def find_healthier_alternatives (src : Product) (score : ℚ)
    (resp : SearchResponse) : Option (List Alt) :=
  match resp with
  | .exn => some []
  | .ok status products =>
    if status = 200 then
      match processProducts src score products with
      | .error _ => some []
      | .ok alts => some (uniqueLoop (sortByScoreDesc alts) [] [])
    else none

/-- A detected symbol as returned by the barcode decode collaborator
(`pyzbar.decode`): we keep only the decoded payload (`.data.decode('utf-8')`
already applied; byte-to-string decoding is external). -/
structure Barcode where
  data : String

/-- The external image collaborators used by `process_frame`
(`cv2.cvtColor` to grayscale, `cv2.equalizeHist`, `cv2.GaussianBlur` with
kernel (5,5), `cv2.adaptiveThreshold` with block size 91 and constant 11,
and `pyzbar.decode`), abstracted as pure functions over opaque frame and
grayscale-image types. -/
structure VisionOps (Frame Gray : Type) where
  cvtColorGray : Frame → Gray
  equalizeHist : Gray → Gray
  gaussianBlur : Gray → Gray
  adaptiveThreshold : Gray → Gray
  decode : Gray → List Barcode

/-- The `methods` list of `process_frame` (`src/Eatelligence.py` lines
100-109): plain grayscale, histogram-equalized, Gaussian-blurred,
adaptive-threshold binarized, in that order. -/
def frameMethods {Frame Gray : Type} (v : VisionOps Frame Gray)
    (frame : Frame) : List Gray :=
  let gray := v.cvtColorGray frame
  [gray, v.equalizeHist gray, v.gaussianBlur gray, v.adaptiveThreshold gray]

/-- The `for processed in methods` loop (`src/Eatelligence.py` lines
111-114): return the first barcode's payload from the first variant whose
decode list is nonempty. -/
def firstDecode {Frame Gray : Type} (v : VisionOps Frame Gray) :
    List Gray → Option String
  | [] => none
  | g :: rest =>
    match v.decode g with
    | [] => firstDecode v rest
    | b :: _ => some b.data

/-- Embedding of `HealthyFoodScanner.process_frame` (`src/Eatelligence.py` lines 93-116):
`None` input (the caller's `cv2.imdecode` yields `None` for absent or
malformed image bytes) gives `None`; otherwise try the four variants in
order. -/
def process_frame {Frame Gray : Type} (v : VisionOps Frame Gray) :
    Option Frame → Option String
  | none => none
  | some frame => firstDecode v (frameMethods v frame)

/-- Whether an `Except` computation succeeded (Boolean, so hypotheses over
concrete inputs are decidable). -/
def isOkB {α : Type} : Except Unit α → Bool
  | .ok _ => true
  | .error _ => false

/-- A mapping all of whose values survive the `float(x or 0)` conversion of
`is_healthier_option`. Per the spec's data model (§3: values are numeric or
absent/null) every NutrientProfile satisfies this. -/
abbrev ProfileConvertible (m : Nutrients) : Prop :=
  ∀ kv ∈ m, isOkB (floatOr0 kv.2) = true

/-- A mapping whose scoring-relevant values survive the bare `float(value)`
conversion of the CLI/streamlit scorer (`nutrients.get(nutrient, 0)`
followed by `float`). -/
abbrev ScoreConvertible (m : Nutrients) : Prop :=
  ∀ f ∈ negative_factors ++ positive_factors, isOkB (pyFloat (nget m f.1)) = true

/-- The nutrient profile of the claims' end-to-end scoring example. -/
def claimProfile : Nutrients :=
  [("sugars_100g", .num 40), ("fat_100g", .num 20),
   ("saturated-fat_100g", .num 15), ("sodium_100g", .num 800),
   ("proteins_100g", .num 2), ("fiber_100g", .num 1)]

/-- The current product's nutrients in the claims' majority-test example. -/
def exampleCurrent : Nutrients :=
  [("sugars_100g", .num 10), ("fat_100g", .num 10),
   ("saturated-fat_100g", .num 10), ("sodium_100g", .num 10),
   ("proteins_100g", .num 0), ("fiber_100g", .num 0)]

/-- The alternative's nutrients in the claims' majority-test example. -/
def exampleAlternative : Nutrients :=
  [("sugars_100g", .num 1), ("fat_100g", .num 1),
   ("saturated-fat_100g", .num 1), ("sodium_100g", .num 10),
   ("proteins_100g", .num 5), ("fiber_100g", .num 5)]

/-- A source product used to exercise the alternatives search at concrete
inputs. -/
def exampleSource : Product :=
  { code := some "0001"
    product_name := some "Example Bar"
    brands := some "Example Brand"
    serving_size := some "100g"
    countries_tags := ["en:united-states"]
    categories_tags := ["en:snacks"]
    nutriments := [("sugars_100g", .num 10)] }

/-- A candidate pool on which the processing loop raises: the candidate has
a truthy non-numeric `sugars_100g` string, scores 50 (the bad value
contributes nothing), is US-tagged and has a different code, so
`is_healthier_option` is reached and `float("abc" or 0)` raises. -/
def failingPool : List Product :=
  [{ code := some "0002"
     product_name := some "Bad Candidate"
     brands := none
     serving_size := none
     countries_tags := ["en:united-states"]
     categories_tags := ["en:snacks"]
     nutriments := [("sugars_100g", .strBad)] }]

/-- A pool whose single candidate scores no higher than any baseline above
50: used to exercise the empty-result path at a concrete input. -/
def lowPool : List Product :=
  [{ code := some "0003"
     product_name := some "Sugary Candidate"
     brands := none
     serving_size := none
     countries_tags := ["en:united-states"]
     categories_tags := ["en:snacks"]
     nutriments := [("sugars_100g", .num 40), ("fat_100g", .num 20)] }]

/-- Trivial vision collaborators over unit frames used to exercise
`process_frame` at a concrete input: only the plain-grayscale variant
yields a detection. -/
def unitVision : VisionOps Unit ℕ :=
  { cvtColorGray := fun _ => 0
    equalizeHist := fun _ => 1
    gaussianBlur := fun _ => 2
    adaptiveThreshold := fun _ => 3
    decode := fun g => if g = 0 then [⟨"0123456789"⟩] else [] }

/-! ### Supporting lemmas: scoring -/

theorem factorContribution_eq (m : Nutrients) (k : String) (w : ℚ) :
    factorContribution m (k, w) = w * min (specNutrientValue m k) 10 := by
  cases hl : nlookup m k with
  | none => simp [factorContribution, specNutrientValue, nget, hl, pyFloat]
  | some v =>
    cases hf : pyFloat v with
    | ok q => simp [factorContribution, specNutrientValue, nget, hl, hf]
    | error e =>
      simp [factorContribution, specNutrientValue, nget, hl, hf]

theorem clampBounds (s : ℚ) : 1 ≤ max 1 (min 100 s) ∧ max 1 (min 100 s) ≤ 100 :=
  ⟨le_max_left _ _, max_le (by norm_num) (min_le_left _ _)⟩

theorem cli_score_shape (m : Nutrients) :
    (∃ s : ℚ, calculate_health_score_cli m = .ok (max 1 (min 100 s))) ∨
      calculate_health_score_cli m = .error () := by
  unfold calculate_health_score_cli
  cases hf : (negative_factors ++ positive_factors).foldlM
      (fun s f => do
        let v ← pyFloat (nget m f.1)
        pure (s + f.2 * min v 10)) (50 : ℚ) with
  | ok s => exact Or.inl ⟨s, by simp [hf, bind, Except.bind, pure, Except.pure]⟩
  | error e => exact Or.inr (by simp [hf, bind, Except.bind])

theorem foldlM_score_ok (m : Nutrients) :
    ∀ (l : List (String × ℚ)) (s : ℚ),
      (∀ f ∈ l, isOkB (pyFloat (nget m f.1)) = true) →
      l.foldlM
        (fun s f => do
          let v ← pyFloat (nget m f.1)
          pure (s + f.2 * min v 10)) s =
        .ok (l.foldl (fun s f => s + factorContribution m f) s) := by
  intro l
  induction l with
  | nil => intro s _; rfl
  | cons f t ih =>
    intro s h
    have hf := h f (List.mem_cons_self f t)
    cases hq : pyFloat (nget m f.1) with
    | error e => rw [hq] at hf; simp [isOkB] at hf
    | ok q =>
      have hrest : ∀ g ∈ t, isOkB (pyFloat (nget m g.1)) = true :=
        fun g hg => h g (List.mem_cons_of_mem f hg)
      have hc : factorContribution m f = f.2 * min q 10 := by
        unfold factorContribution
        rw [hq]
      simp only [List.foldlM_cons, List.foldl_cons, hq, hc, bind, Except.bind,
        pure, Except.pure]
      exact ih (s + f.2 * min q 10) hrest

/-- C1: the health score equals the reference definition (baseline 50,
subtract 5/5/4/3 times the capped sugars/saturated-fat/sodium/fat values,
add 4/4/2/2/2/2 times the capped protein/fiber/vitamin-D/calcium/iron/
potassium values, clamp into [1, 100]); the claims' example profile scores
exactly 1 and the empty profile scores exactly 50. -/
theorem health_score_matches_reference :
    (∀ m : Nutrients, calculate_health_score m = healthScoreSpec m) ∧
    calculate_health_score claimProfile = 1 ∧
    calculate_health_score ([] : Nutrients) = 50 := by
  refine ⟨fun m => ?_, ?_, ?_⟩
  · unfold calculate_health_score healthScoreSpec
    simp only [negative_factors, positive_factors, List.cons_append,
      List.nil_append, List.foldl_cons, List.foldl_nil, factorContribution_eq]
    congr 2
    ring
  · simp [calculate_health_score, negative_factors, positive_factors,
      factorContribution, nget, nlookup, pyFloat, claimProfile, min_def, max_def]
    norm_num
  · simp [calculate_health_score, negative_factors, positive_factors,
      factorContribution, nget, nlookup, pyFloat, min_def, max_def]
    norm_num

/-- C2: for every nutrient mapping, whatever its values, the value returned
by the scorer lies in [1, 100]: unconditionally for the Eatelligence
variant, and for every value the CLI/streamlit variant actually returns
(rather than raising). -/
theorem health_score_in_bounds :
    (∀ m : Nutrients,
       1 ≤ calculate_health_score m ∧ calculate_health_score m ≤ 100) ∧
    (∀ (m : Nutrients) (r : ℚ),
       calculate_health_score_cli m = .ok r → 1 ≤ r ∧ r ≤ 100) := by
  constructor
  · intro m
    exact clampBounds _
  · intro m r h
    rcases cli_score_shape m with ⟨s, hs⟩ | he
    · rw [hs] at h
      cases h
      exact clampBounds s
    · rw [he] at h
      cases h

/-- C2 witness: the bounds evaluated at the claims' example profile. -/
theorem health_score_in_bounds_witness :
    1 ≤ calculate_health_score claimProfile ∧
    calculate_health_score claimProfile ≤ 100 ∧
    1 ≤ (50 : ℚ) ∧ (50 : ℚ) ≤ 100 := by
  refine ⟨(health_score_in_bounds.1 claimProfile).1,
    (health_score_in_bounds.1 claimProfile).2,
    health_score_in_bounds.2 ([] : Nutrients) 50 ?_⟩
  simp [calculate_health_score_cli, negative_factors, positive_factors,
    nget, nlookup, pyFloat, bind, Except.bind, pure, Except.pure, min_def, max_def]
  norm_num

/-- C3 counterexample: the claim says every deployment variant of the scorer
treats a `None` nutrient value as zero contribution and never raises, but
the `barcode_scanner_app.py` / streamlit variant raises an uncaught
`TypeError` on `{'sugars_100g': None}`. -/
theorem cli_score_raises_on_null :
    calculate_health_score_cli [("sugars_100g", PyVal.null)] = .error () := by
  simp [calculate_health_score_cli, negative_factors, positive_factors,
    nget, nlookup, pyFloat, bind, Except.bind, pure, Except.pure]

/-- C3 amended: in the `Eatelligence.py` scorer a nutrient that is absent,
`None`, or a non-numeric (or empty) string contributes exactly zero and the
function never raises; the CLI/streamlit scorer agrees with it whenever
every scoring value converts, but raises on a `None` or non-numeric string
value (counterexample above). -/
theorem score_bad_values_contribute_zero :
    (∀ (m : Nutrients) (k : String) (w : ℚ),
       nlookup m k = none ∨ nlookup m k = some PyVal.null ∨
         nlookup m k = some PyVal.strBad ∨ nlookup m k = some PyVal.strEmpty →
       factorContribution m (k, w) = 0) ∧
    (∀ m : Nutrients, ScoreConvertible m →
       calculate_health_score_cli m = .ok (calculate_health_score m)) := by
  constructor
  · intro m k w h
    have hs : specNutrientValue m k = 0 := by
      rcases h with h | h | h | h <;> simp [specNutrientValue, h, pyFloat]
    rw [factorContribution_eq, hs]
    norm_num
  · intro m h
    unfold calculate_health_score_cli calculate_health_score
    rw [foldlM_score_ok m _ _ h]
    rfl

/-- C3 witness: the amended statement applied at concrete inputs: a `None`
value contributes zero in the Eatelligence scorer, and on the claims'
all-numeric example profile the two scorer variants agree. -/
theorem score_bad_values_contribute_zero_witness :
    factorContribution [("sugars_100g", PyVal.null)] ("sugars_100g", -5) = 0 ∧
    calculate_health_score_cli claimProfile =
      .ok (calculate_health_score claimProfile) := by
  constructor
  · exact score_bad_values_contribute_zero.1 _ _ _
      (Or.inr (Or.inl (by simp [nlookup])))
  · exact score_bad_values_contribute_zero.2 claimProfile (by decide)

/-! ### Supporting lemmas: the majority-improvement test -/

theorem nlookup_mem {m : Nutrients} {k : String} {v : PyVal}
    (h : nlookup m k = some v) : (k, v) ∈ m := by
  induction m with
  | nil => simp [nlookup] at h
  | cons kv rest ih =>
    rw [nlookup] at h
    by_cases hk : kv.1 = k
    · rw [if_pos hk] at h
      cases h
      subst hk
      exact List.mem_cons_self _ _
    · rw [if_neg hk] at h
      exact List.mem_cons_of_mem _ (ih h)

theorem convertible_lookup {m : Nutrients} (h : ProfileConvertible m)
    {k : String} {v : PyVal} (hl : nlookup m k = some v) :
    ∃ q : ℚ, floatOr0 v = .ok q := by
  have := h (k, v) (nlookup_mem hl)
  cases hf : floatOr0 v with
  | ok q => exact ⟨q, rfl⟩
  | error e => rw [hf] at this; simp [isOkB] at this

theorem numValD_of_lookup {m : Nutrients} {k : String} {v : PyVal} {q : ℚ}
    (hl : nlookup m k = some v) (hf : floatOr0 v = .ok q) :
    numValD m k = q := by
  simp [numValD, hl, hf, Except.toOption]

theorem foldlM_compareStep (cur alt : Nutrients)
    (hcur : ProfileConvertible cur) (halt : ProfileConvertible alt) :
    ∀ (cs : List (String × Bool)) (s : ℕ × ℕ),
      cs.foldlM (compareStep cur alt) s =
        .ok (s.1 + (cs.filter (definedOn cur alt)).countP (satOn cur alt),
             s.2 + (cs.filter (definedOn cur alt)).length) := by
  intro cs
  induction cs with
  | nil => intro s; rfl
  | cons c rest ih =>
    intro s
    rw [List.foldlM_cons]
    cases hc : nlookup cur c.1 with
    | none =>
      have hd : definedOn cur alt c = false := by simp [definedOn, hc]
      simp only [compareStep, hc, List.filter_cons, hd]
      exact ih s
    | some cv =>
      cases ha : nlookup alt c.1 with
      | none =>
        have hd : definedOn cur alt c = false := by simp [definedOn, ha]
        simp only [compareStep, hc, ha, List.filter_cons, hd]
        exact ih s
      | some av =>
        obtain ⟨qc, hqc⟩ := convertible_lookup hcur hc
        obtain ⟨qa, hqa⟩ := convertible_lookup halt ha
        have hd : definedOn cur alt c = true := by simp [definedOn, hc, ha]
        have hsat : satOn cur alt c =
            (if c.2 then decide (qc < qa) else decide (qa < qc)) := by
          rw [satOn, numValD_of_lookup hc hqc, numValD_of_lookup ha hqa]
        simp only [compareStep, hc, ha, hqc, hqa, bind, Except.bind, pure,
          Except.pure, List.filter_cons, hd, if_true, List.countP_cons,
          List.length_cons, hsat]
        rw [ih]
        cases hb : (if c.2 then decide (qc < qa) else decide (qa < qc)) <;>
          simp [hb] <;> omega

/-- C4: `is_healthier_option` returns `True` exactly when the number of
comparison pairs defined on both sides is positive and the fraction of
defined pairs satisfying their directional comparison is at least 0.6 —
over NutrientProfiles (mappings whose values convert, which per the spec's
data model is all of them); and the claims' concrete example, where five of
six comparisons favor the alternative, is accepted. -/
theorem majority_test_matches_reference :
    (∀ cur alt : Nutrients, ProfileConvertible cur → ProfileConvertible alt →
       is_healthier_option cur alt = .ok (majoritySpec cur alt)) ∧
    is_healthier_option exampleCurrent exampleAlternative = .ok true := by
  constructor
  · intro cur alt hcur halt
    unfold is_healthier_option majoritySpec definedPairs
    rw [foldlM_compareStep cur alt hcur halt comparisonList (0, 0)]
    simp [bind, Except.bind, pure, Except.pure]
  · simp [is_healthier_option, comparisonList, compareStep, exampleCurrent,
      exampleAlternative, nlookup, floatOr0, pyTruthy, pyFloat, bind,
      Except.bind, pure, Except.pure]
    norm_num

/-- C4 witness: the equivalence applied at the claims' example profiles,
whose values all convert. -/
theorem majority_test_matches_reference_witness :
    is_healthier_option exampleCurrent exampleAlternative =
      .ok (majoritySpec exampleCurrent exampleAlternative) :=
  majority_test_matches_reference.1 exampleCurrent exampleAlternative
    (by decide) (by decide)

theorem foldlM_compareStep_self (m : Nutrients) :
    ∀ (cs : List (String × Bool)) (s : ℕ × ℕ),
      cs.foldlM (compareStep m m) s = .error () ∨
        ∃ t : ℕ, cs.foldlM (compareStep m m) s = .ok (s.1, t) := by
  intro cs
  induction cs with
  | nil => intro s; exact Or.inr ⟨s.2, rfl⟩
  | cons c rest ih =>
    intro s
    rw [List.foldlM_cons]
    cases hc : nlookup m c.1 with
    | none =>
      simp only [compareStep, hc]
      exact ih s
    | some v =>
      cases hf : floatOr0 v with
      | error e =>
        simp [compareStep, hc, hf, bind, Except.bind]
      | ok q =>
        have hstep : compareStep m m s c = .ok (s.1, s.2 + 1) := by
          simp [compareStep, hc, hf, bind, Except.bind, pure, Except.pure]
        rw [hstep]
        exact ih (s.1, s.2 + 1)

theorem satOn_self (m : Nutrients) (c : String × Bool) :
    satOn m m c = false := by
  unfold satOn
  cases c.2 <;> simp

/-- C10: the majority-improvement test never accepts a candidate whose
nutrient mapping is identical to the source's: `is_healthier_option(m, m)`
never returns `True` (every directional comparison is strict), and on
NutrientProfiles (mappings whose values convert, per the spec's data model)
it returns `False`. -/
theorem majority_test_irreflexive :
    ∀ m : Nutrients,
      is_healthier_option m m ≠ .ok true ∧
        (ProfileConvertible m → is_healthier_option m m = .ok false) := by
  intro m
  constructor
  · intro hcontra
    unfold is_healthier_option at hcontra
    rcases foldlM_compareStep_self m comparisonList (0, 0) with he | ⟨t, ht⟩
    · rw [he] at hcontra
      simp [bind, Except.bind] at hcontra
    · rw [ht] at hcontra
      simp only [bind, Except.bind, pure, Except.pure, Except.ok.injEq] at hcontra
      have : ¬ (0 < t ∧ (3 : ℚ) / 5 ≤ ((0 : ℕ) : ℚ) / (t : ℚ)) := by
        rintro ⟨-, hle⟩
        rw [Nat.cast_zero, zero_div] at hle
        norm_num at hle
      rw [decide_eq_true_iff] at hcontra
      exact this hcontra
  · intro h
    unfold is_healthier_option
    rw [foldlM_compareStep m m h h comparisonList (0, 0)]
    have hcnt :
        (comparisonList.filter (definedOn m m)).countP (satOn m m) = 0 := by
      rw [List.countP_eq_zero]
      intro c _
      simp [satOn_self]
    simp only [bind, Except.bind, pure, Except.pure, hcnt, Nat.zero_add,
      Except.ok.injEq]
    rw [decide_eq_false_iff_not]
    rintro ⟨-, hle⟩
    rw [Nat.cast_zero, zero_div] at hle
    norm_num at hle

/-- C10 witness: irreflexivity evaluated at the claims' example profile. -/
theorem majority_test_irreflexive_witness :
    is_healthier_option exampleCurrent exampleCurrent ≠ .ok true ∧
      is_healthier_option exampleCurrent exampleCurrent = .ok false :=
  ⟨(majority_test_irreflexive exampleCurrent).1,
    (majority_test_irreflexive exampleCurrent).2 (by decide)⟩

/-! ### Supporting lemmas: alternative discovery -/

theorem dedupByName_sublist (l : List Alt) : (dedupByName l).Sublist l := by
  induction l using dedupByName.induct with
  | case1 => simp [dedupByName]
  | case2 a rest ih =>
    rw [dedupByName]
    exact (ih.trans (List.filter_sublist rest)).cons₂ a

theorem dedupByName_names_distinct (l : List Alt) :
    (dedupByName l).Pairwise (fun a b => a.name ≠ b.name) := by
  induction l using dedupByName.induct with
  | case1 => simp [dedupByName]
  | case2 a rest ih =>
    rw [dedupByName]
    refine List.Pairwise.cons ?_ ih
    intro b hb
    have hbf : b ∈ rest.filter (fun b => b.name ≠ a.name) :=
      (dedupByName_sublist _).subset hb
    have hne : b.name ≠ a.name := by
      simpa using (List.mem_filter.mp hbf).2
    exact hne.symm

theorem uniqueLoop_eq :
    ∀ (l : List Alt) (seen : List String) (acc : List Alt), acc.length < 3 →
      uniqueLoop l seen acc =
        acc ++
          (dedupByName (l.filter (fun a => !decide (a.name ∈ seen)))).take
            (3 - acc.length) := by
  intro l
  induction l with
  | nil =>
    intro seen acc _
    simp [uniqueLoop, dedupByName]
  | cons a rest ih =>
    intro seen acc hacc
    by_cases hs : a.name ∈ seen
    · rw [uniqueLoop, if_pos hs, List.filter_cons_of_neg (by simp [hs]),
        ih seen acc hacc]
    · rw [uniqueLoop, if_neg hs, List.filter_cons_of_pos (by simp [hs]),
        dedupByName]
      by_cases hlen : 3 ≤ (acc ++ [a]).length
      · rw [if_pos hlen]
        have h2 : acc.length = 2 := by
          rw [List.length_append, List.length_singleton] at hlen
          omega
        rw [h2]
        simp
      · rw [if_neg hlen]
        have hlt : (acc ++ [a]).length < 3 := Nat.lt_of_not_le hlen
        rw [ih (a.name :: seen) (acc ++ [a]) hlt, List.filter_filter]
        have hcong :
            rest.filter
              (fun b => decide (b.name ≠ a.name) && !decide (b.name ∈ seen)) =
            rest.filter (fun b => !decide (b.name ∈ a.name :: seen)) := by
          refine List.filter_congr ?_
          intro b _
          by_cases h1 : b.name = a.name <;> by_cases h2 : b.name ∈ seen <;>
            simp [h1, h2]
        rw [hcong, List.length_append, List.length_singleton]
        obtain ⟨n, hn⟩ : ∃ n, 3 - acc.length = n + 1 :=
          ⟨3 - acc.length - 1, by omega⟩
        rw [hn, List.take_succ_cons]
        have hidx : 3 - (acc.length + 1) = n := by omega
        rw [hidx, List.append_assoc, List.singleton_append]

theorem uniqueLoop_closed (l : List Alt) :
    uniqueLoop l [] [] = (dedupByName l).take 3 := by
  rw [uniqueLoop_eq l [] [] (by norm_num)]
  have hf : l.filter (fun a => !decide (a.name ∈ ([] : List String))) = l := by
    have hpred :
        (fun (a : Alt) => !decide (a.name ∈ ([] : List String))) =
          fun _ => true := by
      funext a
      simp
    rw [hpred, List.filter_true]
  rw [hf]
  simp

theorem processProducts_mem {src : Product} {score : ℚ} :
    ∀ {pool : List Product} {alts : List Alt},
      processProducts src score pool = .ok alts →
      ∀ a ∈ alts, ∃ p ∈ pool,
        p.code ≠ src.code ∧ "en:united-states" ∈ p.countries_tags ∧
        score < calculate_health_score p.nutriments ∧
        is_healthier_option src.nutriments p.nutriments = .ok true ∧
        a = mkAlt p (calculate_health_score p.nutriments) := by
  intro pool
  induction pool with
  | nil =>
    intro alts h a ha
    simp only [processProducts] at h
    injection h with h4
    subst h4
    simp at ha
  | cons p rest ih =>
    intro alts h a ha
    by_cases h1 : p.code = src.code
    · simp only [processProducts, if_pos h1] at h
      obtain ⟨q, hq, hrest⟩ := ih h a ha
      exact ⟨q, List.mem_cons_of_mem _ hq, hrest⟩
    · by_cases h2 : "en:united-states" ∉ p.countries_tags
      · simp only [processProducts, if_neg h1, if_pos h2] at h
        obtain ⟨q, hq, hrest⟩ := ih h a ha
        exact ⟨q, List.mem_cons_of_mem _ hq, hrest⟩
      · by_cases h3 : score < calculate_health_score p.nutriments
        · cases hopt : is_healthier_option src.nutriments p.nutriments with
          | error e =>
            simp only [processProducts, if_neg h1, if_neg h2, if_pos h3,
              hopt] at h
            exact absurd h (by simp)
          | ok b =>
            cases b with
            | false =>
              simp only [processProducts, if_neg h1, if_neg h2, if_pos h3,
                hopt] at h
              obtain ⟨q, hq, hrest⟩ := ih h a ha
              exact ⟨q, List.mem_cons_of_mem _ hq, hrest⟩
            | true =>
              simp only [processProducts, if_neg h1, if_neg h2, if_pos h3,
                hopt] at h
              cases hrest : processProducts src score rest with
              | error e =>
                rw [hrest] at h
                exact absurd h (by simp)
              | ok l =>
                rw [hrest] at h
                injection h with h4
                subst h4
                rcases List.mem_cons.mp ha with rfl | hal
                · exact ⟨p, List.mem_cons_self _ _, h1, not_not.mp h2, h3,
                    hopt, rfl⟩
                · obtain ⟨q, hq, hq2⟩ := ih hrest a hal
                  exact ⟨q, List.mem_cons_of_mem _ hq, hq2⟩
        · simp only [processProducts, if_neg h1, if_neg h2, if_neg h3] at h
          obtain ⟨q, hq, hrest⟩ := ih h a ha
          exact ⟨q, List.mem_cons_of_mem _ hq, hrest⟩

theorem processProducts_all_low {src : Product} {score : ℚ} :
    ∀ pool : List Product,
      (∀ p ∈ pool, calculate_health_score p.nutriments ≤ score) →
      processProducts src score pool = .ok [] := by
  intro pool
  induction pool with
  | nil => intro _; rfl
  | cons p rest ih =>
    intro h
    have hp := h p (List.mem_cons_self _ _)
    have hrest := ih (fun q hq => h q (List.mem_cons_of_mem _ hq))
    by_cases h1 : p.code = src.code
    · simp only [processProducts, if_pos h1]
      exact hrest
    · by_cases h2 : "en:united-states" ∉ p.countries_tags
      · simp only [processProducts, if_neg h1, if_pos h2]
        exact hrest
      · simp only [processProducts, if_neg h1, if_neg h2,
          if_neg (not_lt.mpr hp)]
        exact hrest

/-- C5: every alternative returned on a successful search comes from a pool
candidate whose code differs from the source's, whose country tags contain
the US tag, whose health score strictly exceeds the source's, and which
passes the majority-improvement test; and when every pool candidate scores
no higher than the source, the result is empty. -/
theorem alternatives_sound :
    ∀ (src : Product) (score : ℚ) (pool : List Product) (l : List Alt),
      find_healthier_alternatives src score (.ok 200 pool) = some l →
      (∀ a ∈ l, ∃ p ∈ pool,
         p.code ≠ src.code ∧ "en:united-states" ∈ p.countries_tags ∧
         score < calculate_health_score p.nutriments ∧
         is_healthier_option src.nutriments p.nutriments = .ok true ∧
         a = mkAlt p (calculate_health_score p.nutriments)) ∧
      ((∀ p ∈ pool, calculate_health_score p.nutriments ≤ score) → l = []) := by
  intro src score pool l h
  rw [find_healthier_alternatives, if_pos rfl] at h
  constructor
  · intro a ha
    cases hp : processProducts src score pool with
    | error e =>
      rw [hp] at h
      injection h with h4
      subst h4
      simp at ha
    | ok alts =>
      rw [hp] at h
      injection h with h4
      subst h4
      rw [uniqueLoop_closed] at ha
      have ha2 : a ∈ dedupByName (sortByScoreDesc alts) :=
        (List.take_sublist _ _).subset ha
      have ha3 : a ∈ sortByScoreDesc alts := (dedupByName_sublist _).subset ha2
      have ha4 : a ∈ alts :=
        ((List.perm_insertionSort altGE alts).mem_iff).mp ha3
      exact processProducts_mem hp a ha4
  · intro hlow
    rw [processProducts_all_low pool hlow] at h
    injection h with h4
    subst h4
    rfl

/-- C5 witness: the soundness statement applied at a concrete source and a
concrete pool whose single candidate scores 1 against a source score of 60:
the returned list is empty. -/
theorem alternatives_sound_witness : ([] : List Alt) = [] := by
  have hscore :
      calculate_health_score
        [("sugars_100g", PyVal.num 40), ("fat_100g", PyVal.num 20)] = 1 := by
    simp [calculate_health_score, negative_factors, positive_factors,
      factorContribution, nget, nlookup, pyFloat, min_def, max_def]
    norm_num
  have hfind :
      find_healthier_alternatives exampleSource 60 (.ok 200 lowPool) =
        some [] := by
    have hp : processProducts exampleSource 60 lowPool = .ok [] := by
      simp [processProducts, lowPool, exampleSource, hscore,
        (by norm_num : ¬ ((60 : ℚ) < 1))]
    rw [find_healthier_alternatives, if_pos rfl, hp]
    rfl
  refine (alternatives_sound exampleSource 60 lowPool [] hfind).2 ?_
  intro p hp
  fin_cases hp
  dsimp only
  rw [hscore]
  norm_num

/-- C6: on a successful search the returned list has at most 3 entries,
pairwise distinct display names, is sorted descending by health score, and
equals the first-occurrence deduplication of the sorted accepted candidates
truncated to 3. -/
theorem alternatives_capped_sorted :
    ∀ (src : Product) (score : ℚ) (pool : List Product) (l : List Alt),
      find_healthier_alternatives src score (.ok 200 pool) = some l →
      l.length ≤ 3 ∧ l.Pairwise (fun a b => a.name ≠ b.name) ∧
        l.Sorted altGE ∧
        (∀ alts, processProducts src score pool = .ok alts →
          l = (dedupByName (sortByScoreDesc alts)).take 3) := by
  intro src score pool l h
  rw [find_healthier_alternatives, if_pos rfl] at h
  cases hp : processProducts src score pool with
  | error e =>
    rw [hp] at h
    injection h with h4
    subst h4
    refine ⟨by simp, by simp, by simp [List.Sorted], ?_⟩
    intro alts halts
    exact absurd halts (by simp)
  | ok alts0 =>
    rw [hp] at h
    injection h with h4
    subst h4
    rw [uniqueLoop_closed]
    refine ⟨List.length_take_le _ _, ?_, ?_, ?_⟩
    · exact List.Pairwise.sublist (List.take_sublist _ _)
        (dedupByName_names_distinct _)
    · exact List.Pairwise.sublist
        ((List.take_sublist _ _).trans (dedupByName_sublist _))
        (List.sorted_insertionSort altGE alts0)
    · intro alts halts
      injection halts with h5
      subst h5
      rfl

/-- C6 witness: the cap, dedup and sort invariants evaluated on the empty
candidate pool. -/
theorem alternatives_capped_sorted_witness :
    ([] : List Alt).length ≤ 3 ∧
      ([] : List Alt) = (dedupByName (sortByScoreDesc [])).take 3 :=
  ⟨(alternatives_capped_sorted exampleSource 60 [] [] rfl).1,
    (alternatives_capped_sorted exampleSource 60 [] [] rfl).2.2.2 [] rfl⟩

/-- C7: a raised exception during the search — whether the HTTP request /
JSON parsing failed or the candidate loop raised on a malformed nutrient
value — is caught by the surrounding `except`, which returns exactly the
empty list; no partial list and no propagated error. -/
theorem search_failures_yield_empty :
    (∀ (src : Product) (score : ℚ),
       find_healthier_alternatives src score .exn = some []) ∧
    (∀ (src : Product) (score : ℚ) (pool : List Product),
       processProducts src score pool = .error () →
       find_healthier_alternatives src score (.ok 200 pool) = some []) := by
  constructor
  · intro src score
    rfl
  · intro src score pool h
    rw [find_healthier_alternatives, if_pos rfl, h]

/-- C7 witness: the failure semantics at concrete inputs: a raised request
and a pool whose single candidate makes the comparison loop raise both
yield the empty list. -/
theorem search_failures_yield_empty_witness :
    find_healthier_alternatives exampleSource 0 .exn = some [] ∧
      find_healthier_alternatives exampleSource 0 (.ok 200 failingPool) =
        some [] := by
  refine ⟨search_failures_yield_empty.1 exampleSource 0,
    search_failures_yield_empty.2 exampleSource 0 failingPool ?_⟩
  have hscore : calculate_health_score [("sugars_100g", PyVal.strBad)] = 50 := by
    simp [calculate_health_score, negative_factors, positive_factors,
      factorContribution, nget, nlookup, pyFloat, min_def, max_def]
    norm_num
  simp [processProducts, failingPool, exampleSource, hscore,
    is_healthier_option, comparisonList, compareStep, nlookup, floatOr0,
    pyTruthy, pyFloat, bind, Except.bind,
    (by norm_num : (0 : ℚ) < 50)]

/-- C9: when the search response completes without an exception but its
status code is not 200, `find_healthier_alternatives` falls through every
`return` and yields Python `None` (not a list), so callers must handle
`None`. -/
theorem non_200_returns_none :
    ∀ (src : Product) (score : ℚ) (status : ℕ) (pool : List Product),
      status ≠ 200 →
      find_healthier_alternatives src score (.ok status pool) = none := by
  intro src score status pool h
  rw [find_healthier_alternatives, if_neg h]

/-- C9 witness: a 503 response yields `None` at concrete inputs. -/
theorem non_200_returns_none_witness :
    find_healthier_alternatives exampleSource 60 (.ok 503 lowPool) = none :=
  non_200_returns_none exampleSource 60 503 lowPool (by decide)

/-! ### Supporting lemmas: barcode acquisition -/

theorem firstDecode_none {Frame Gray : Type} (v : VisionOps Frame Gray) :
    ∀ gs : List Gray, (∀ g ∈ gs, v.decode g = []) → firstDecode v gs = none := by
  intro gs
  induction gs with
  | nil => intro _; rfl
  | cons g rest ih =>
    intro h
    rw [firstDecode, h g (List.mem_cons_self _ _)]
    exact ih (fun g2 hg2 => h g2 (List.mem_cons_of_mem _ hg2))

theorem firstDecode_hit {Frame Gray : Type} (v : VisionOps Frame Gray) :
    ∀ (gs : List Gray) (i : ℕ) (h : i < gs.length),
      (∀ j (hj : j < i), v.decode (gs.get ⟨j, hj.trans h⟩) = []) →
      ∀ (b : Barcode) (bs : List Barcode),
        v.decode (gs.get ⟨i, h⟩) = b :: bs →
        firstDecode v gs = some b.data := by
  intro gs
  induction gs with
  | nil =>
    intro i h
    exact absurd h (by simp)
  | cons g rest ih =>
    intro i h hprev b bs hdec
    cases i with
    | zero =>
      rw [firstDecode]
      rw [List.get] at hdec
      rw [hdec]
    | succ n =>
      have h0 : v.decode g = [] := by
        have := hprev 0 (Nat.succ_pos n)
        rwa [List.get] at this
      rw [firstDecode, h0]
      have hn : n < rest.length := Nat.lt_of_succ_lt_succ h
      refine ih n hn ?_ b bs ?_
      · intro j hj
        have := hprev (j + 1) (Nat.succ_lt_succ hj)
        rwa [List.get] at this
      · rwa [List.get] at hdec

/-- C8: barcode acquisition on a frame tries the variants in the fixed
order plain grayscale, histogram-equalized, Gaussian-blurred,
adaptive-threshold binarized, returns the first barcode's payload from the
first variant that yields any detection, and returns "not found" (`none`)
when no variant detects anything or when the frame is absent/malformed
(the caller's image decode yields `None` for such input). The image
operators themselves are opaque external collaborators. -/
theorem process_frame_first_hit :
    ∀ (Frame Gray : Type) (v : VisionOps Frame Gray),
      process_frame v none = none ∧
      (∀ f : Frame, (∀ g ∈ frameMethods v f, v.decode g = []) →
        process_frame v (some f) = none) ∧
      (∀ (f : Frame) (i : ℕ) (h : i < (frameMethods v f).length),
        (∀ j (hj : j < i), v.decode ((frameMethods v f).get ⟨j, hj.trans h⟩) = []) →
        ∀ (b : Barcode) (bs : List Barcode),
          v.decode ((frameMethods v f).get ⟨i, h⟩) = b :: bs →
          process_frame v (some f) = some b.data) := by
  intro Frame Gray v
  refine ⟨rfl, ?_, ?_⟩
  · intro f h
    rw [process_frame]
    exact firstDecode_none v _ h
  · intro f i h hprev b bs hdec
    rw [process_frame]
    exact firstDecode_hit v _ i h hprev b bs hdec

/-- C8 witness: with trivial unit collaborators whose plain-grayscale
variant alone detects one barcode, the frame yields that payload; the
absent frame yields `none`. -/
theorem process_frame_first_hit_witness :
    process_frame unitVision none = none ∧
      process_frame unitVision (some ()) = some "0123456789" :=
  ⟨(process_frame_first_hit Unit ℕ unitVision).1,
    (process_frame_first_hit Unit ℕ unitVision).2.2 () 0 (by decide)
      (fun j hj => absurd hj (by omega)) ⟨"0123456789"⟩ [] rfl⟩
